import Mathlib

/-!
Shallow embedding of `src/electron-starter/src/js/main/WindowManager.js`
(an Electron-style window lifecycle manager) and of the react-redux
container fragment bundled in the same source file.

The `WindowManager` instance state is its `_windows` JavaScript `Map`,
modelled as an insertion-ordered association list, plus two
instrumentation counters recording the externally observable toolkit
calls (`new BrowserWindow(...)` constructions and `w.close()` requests).
Window-close notifications (`'closed'` events) are delivered by the
toolkit as later callbacks; here delivery of a notification runs the
handler that `_showMain` / `_showAbout` attached to the window at
creation time, and a `w.close()` request issued inside a handler is
followed by the delivery of that window's own `'closed'` notification.
-/

set_option autoImplicit false

namespace ElectronStarter

/-- JavaScript values that can reach `show`'s `switch ( type )` dispatch:
window-type strings, plus `undefined` (the value of an absent object
property). -/
inductive JSVal where
  | str (s : String)
  | undefined
deriving DecidableEq, Repr

/-- Source: `WindowTypes.Main = 'main'` (WindowManager.js line 11). -/
def WindowTypes.Main : JSVal := .str "main"

/-- Source: `WindowTypes.About = 'about'` (WindowManager.js line 12). -/
def WindowTypes.About : JSVal := .str "about"

/-- The exported `WindowTypes` object defines only `Main` and `About`, so
the property access `WindowTypes.GraphicEqualizer` in `show`'s dispatch
(line 79) evaluates to JavaScript `undefined`. -/
def WindowTypes.GraphicEqualizer : JSVal := .undefined

/-- Which `'closed'` handler was attached to a window at creation:
`_showMain` attaches the cascading handler (lines 143-154), `_showAbout`
attaches the handler that only deletes the About entry (lines 177-181). -/
inductive HKind where
  | hMain
  | hAbout
deriving DecidableEq, Repr

/-- A `BrowserWindow` handle: identity (`id`, the construction number),
current visibility, the attached `'closed'` handler, and the creation
options / loaded resource recorded from the source. -/
structure Window where
  id : Nat
  visible : Bool
  handler : HKind
  width : Nat
  height : Nat
  minWidth : Option Nat
  minHeight : Option Nat
  resizable : Bool
  alwaysOnTop : Bool
  hasMenu : Bool
  loadedFile : String
deriving DecidableEq, Repr

/-- `Map.prototype.get`: first (and, without duplicate keys, only) entry
with the given key. -/
def mapGet : List (JSVal × Window) → JSVal → Option Window
  | [], _ => none
  | (k, v) :: rest, key => if k = key then some v else mapGet rest key

/-- `Map.prototype.set`: replace the entry in place when the key is
present, otherwise append at the end (JS `Map` is insertion-ordered). -/
def mapSet : List (JSVal × Window) → JSVal → Window → List (JSVal × Window)
  | [], key, v => [(key, v)]
  | (k, w) :: rest, key, v =>
    if k = key then (key, v) :: rest else (k, w) :: mapSet rest key v

/-- `Map.prototype.delete`: remove the entry with the given key. -/
def mapDelete : List (JSVal × Window) → JSVal → List (JSVal × Window)
  | [], _ => []
  | (k, w) :: rest, key => if k = key then rest else (k, w) :: mapDelete rest key

/-- The state of a `WindowManager` instance: the `_windows` map, plus
instrumentation counting the toolkit calls issued so far (`nextId` is the
number of `new BrowserWindow(...)` constructions and doubles as the next
window identity; `closeRequests` counts `w.close()` calls). -/
structure WMState where
  windows : List (JSVal × Window)
  nextId : Nat
  closeRequests : Nat
deriving DecidableEq, Repr

/-- The constructor's state: `this._windows = new Map()` (line 35), no
toolkit calls issued yet. -/
def initState : WMState := { windows := [], nextId := 0, closeRequests := 0 }

/-- `getWindow( type )` (lines 48-50): `return this._windows.get( type )`.
A pure lookup; it takes the state and returns only the optional handle. -/
def getWindow (t : JSVal) (s : WMState) : Option Window :=
  mapGet s.windows t

/-- The `new BrowserWindow( { width: 600, height: 480, minWidth: 480,
minHeight: 320, resizable: true } )` expression of `_showMain` (lines
135-141), with the cascading `'closed'` handler attached (lines 143-154)
and `window-main.html` loaded (lines 156-157); a `BrowserWindow` is
created visible. -/
def mkMainWindow (id : Nat) : Window :=
  { id := id, visible := true, handler := .hMain,
    width := 600, height := 480, minWidth := some 480,
    minHeight := some 320, resizable := true, alwaysOnTop := false,
    hasMenu := true, loadedFile := "window-main.html" }

/-- `_showMain()` (lines 132-160): if a Main entry exists, return; else
construct the main `BrowserWindow` and register it under
`WindowTypes.Main`. -/
def showMain (s : WMState) : WMState :=
  match mapGet s.windows WindowTypes.Main with
  | some _ => s
  | none =>
    { s with windows := mapSet s.windows WindowTypes.Main (mkMainWindow s.nextId),
             nextId := s.nextId + 1 }

/-- The `new BrowserWindow( { width: 400, height: 256, resizable: false,
alwaysOnTop: true } )` expression of `_showAbout` (lines 168-173), with
the menu removed (`w.setMenu( null )`, line 175), the About `'closed'`
handler attached (lines 177-181) and `window-about.html` loaded (lines
183-184). -/
def mkAboutWindow (id : Nat) : Window :=
  { id := id, visible := true, handler := .hAbout,
    width := 400, height := 256, minWidth := none,
    minHeight := none, resizable := false, alwaysOnTop := true,
    hasMenu := false, loadedFile := "window-about.html" }

/-- `_showAbout()` (lines 165-187): if an About entry exists, return; else
construct the about `BrowserWindow` and register it under
`WindowTypes.About`. -/
def showAbout (s : WMState) : WMState :=
  match mapGet s.windows WindowTypes.About with
  | some _ => s
  | none =>
    { s with windows := mapSet s.windows WindowTypes.About (mkAboutWindow s.nextId),
             nextId := s.nextId + 1 }

/-- Delivery of a `'closed'` notification, running the handler attached at
creation. The About handler (lines 177-181) deletes the About entry. The
Main handler (lines 143-154) first runs the `forEach` that calls
`value.close()` on every non-Main entry (counted in `closeRequests`),
then deletes the Main entry; the toolkit subsequently delivers the
`'closed'` notification of each window so closed, which runs that
window's own handler. `fuel` bounds that re-entrant delivery depth; any
fuel at least the map size is enough, since handlers only remove
entries. -/
def runClosed : Nat → HKind → WMState → WMState
  | _, .hAbout, s => { s with windows := mapDelete s.windows WindowTypes.About }
  | 0, .hMain, s => s
  | fuel + 1, .hMain, s =>
    let others := s.windows.filter (fun p => !(p.1 == WindowTypes.Main))
    let s1 : WMState := { s with closeRequests := s.closeRequests + others.length }
    let s2 : WMState := { s1 with windows := mapDelete s1.windows WindowTypes.Main }
    others.foldl (fun st p => runClosed fuel p.2.handler st) s2

/-- Delivery of one `'closed'` notification with sufficient fuel. -/
def deliverClosed (h : HKind) (s : WMState) : WMState :=
  runClosed (s.windows.length + 1) h s

/-- `close( type )` (lines 57-62): look the window up; absent handles are
guarded (`if( !( w ) ) { return; }`); otherwise `w.close()` is issued
(counted) and the window's `'closed'` notification is eventually
delivered, running its handler. -/
def close (t : JSVal) (s : WMState) : WMState :=
  match mapGet s.windows t with
  | none => s
  | some w => deliverClosed w.handler { s with closeRequests := s.closeRequests + 1 }

/-- `show( type )` (lines 69-86): `switch ( type )` with strict equality,
in source order: `case WindowTypes.Main` (`'main'`), `case
WindowTypes.About` (`'about'`), `case WindowTypes.GraphicEqualizer`
(`undefined`, an absent property) — whose body calls
`this._showGraphicEqualizer()`, a method that does not exist on the
class, so that branch raises a `TypeError` — and a `default` branch that
does nothing. -/
def showW (t : JSVal) (s : WMState) : Except String WMState :=
  if t = WindowTypes.Main then .ok (showMain s)
  else if t = WindowTypes.About then .ok (showAbout s)
  else if t = WindowTypes.GraphicEqualizer then
    .error "TypeError: this._showGraphicEqualizer is not a function"
  else .ok s

/-- `toggle( type )` (lines 93-107): Main is always showing, so `toggle`
returns at once for it; otherwise, with a handle, flip visibility
(`w.hide()` / `w.show()`, an in-place mutation of the mapped window
object); with no handle, delegate to `this.show( type )`. -/
def toggle (t : JSVal) (s : WMState) : Except String WMState :=
  if t = WindowTypes.Main then .ok s
  else
    match mapGet s.windows t with
    | some w =>
      if w.visible then
        .ok { s with windows := mapSet s.windows t { w with visible := false } }
      else
        .ok { s with windows := mapSet s.windows t { w with visible := true } }
    | none => showW t s

/-- `reload()` (lines 112-117): `BrowserWindow.getFocusedWindow()` is
toolkit state, passed here as a parameter; with a focused window,
`w.reload()` acts on that window alone (the returned list records the
ids of the windows reloaded); with none, nothing happens. The
`_windows` registry is never consulted or modified. -/
def reload (focused : Option Window) (s : WMState) : WMState × List Nat :=
  match focused with
  | none => (s, [])
  | some w => (s, [w.id])

/-- `toggleDevTools()` (lines 122-127): same shape as `reload`; the
returned list records the ids of the windows whose developer tools were
toggled. The `_windows` registry is never consulted or modified. -/
def toggleDevTools (focused : Option Window) (s : WMState) : WMState × List Nat :=
  match focused with
  | none => (s, [])
  | some w => (s, [w.id])

/-- Modelled from the spec: the IPC message keys come from
`src/js/common/Constants.js`, which is not part of the shown sources;
per the spec the inbound message is a "request to show a URL externally"
and the response "a single acknowledgment message with no payload", so
the two keys are modelled as opaque message names. -/
inductive IPCKey where
  | RequestShowURL
  | FinishShowURL
deriving DecidableEq, Repr

/-- Externally observable effects of one run of the IPC handler: the
`console.log` output, the `shell.openExternal` invocations (each with
its argument string), and the messages sent to `ev.sender`. -/
structure IPCEffects where
  consoleLogged : List String
  openedExternal : List String
  sentToSender : List IPCKey
deriving DecidableEq, Repr

/-- `_onRequestShowURL( ev, url )` (lines 195-199): log the URL, call
`this._context.shell.openExternal( url )`, and send `FinishShowURL`
back to `ev.sender`. No validation, no error path. -/
def onRequestShowURL (url : String) : IPCEffects :=
  { consoleLogged := [url],
    openedExternal := [url],
    sentToSender := [.FinishShowURL] }

/-- Modelled from the spec: `Folder` comes from `../RendererTypes`, not
part of the shown sources; the spec calls it an external entity owned by
the application store, so it is modelled as an opaque token. -/
structure Folder where
  tag : Nat
deriving DecidableEq, Repr

/-- Modelled from the spec: `AppState` comes from `../RendererTypes`, not
part of the shown sources; the spec says the binding "consumes an
application-state shape with fields `folders`, `currentFolder`" and
"projects two named fields out of global application state", so the
state carries those two fields plus a stand-in for the remaining store
slices this fragment never reads. -/
structure AppState where
  folders : List Folder
  currentFolder : Option Folder
  restOfState : Nat
deriving DecidableEq, Repr

/-- Modelled from the spec: the action creators `enumSubFolders` /
`enumItems` come from `../actions/index`, not part of the shown sources;
per the spec each callback "constructs an action value from its
argument", so an action is the constructor applied to that argument. -/
inductive Action where
  | enumSubFolders (folderPath : String)
  | enumItems (folder : Folder)
deriving DecidableEq, Repr

/-- The `StateByProps` shape of `components/Explorer`: the two projected
fields. -/
structure StateByProps where
  folders : List Folder
  currentFolder : Option Folder
deriving DecidableEq, Repr

/-- `mapStateToProps` (source lines 205-208): projects `state.folders`
and `state.currentFolder` unchanged. -/
def mapStateToProps (state : AppState) : StateByProps :=
  { folders := state.folders, currentFolder := state.currentFolder }

/-- The `DispatchByProps` shape: each callback is modelled by the list of
actions it submits to the store's `dispatch` entry point during one
invocation, in order. -/
structure DispatchByProps where
  enumSubFolders : String → List Action
  enumItems : Folder → List Action

/-- `mapDispatchToProps` (source lines 210-217): each callback constructs
one action from its argument and dispatches it once. -/
def mapDispatchToProps : DispatchByProps :=
  { enumSubFolders := fun folderPath => [Action.enumSubFolders folderPath],
    enumItems := fun folder => [Action.enumItems folder] }

/-- A registry entry the `WindowManager` code can actually create: only
`_showMain` ever sets the `Main` key (always with the cascading handler)
and only `_showAbout` ever sets the `About` key (always with the About
handler). -/
def wfEntry (p : JSVal × Window) : Prop :=
  (p.1 = WindowTypes.Main ∧ p.2.handler = .hMain) ∨
    (p.1 = WindowTypes.About ∧ p.2.handler = .hAbout)

instance instDecidableWfEntry (p : JSVal × Window) : Decidable (wfEntry p) := by
  unfold wfEntry
  exact inferInstance

/-- Well-formed `_windows` contents: every entry is one the code can
create, and keys are not duplicated (a JS `Map` never holds two entries
with the same key). -/
def wfW (l : List (JSVal × Window)) : Prop :=
  (∀ p ∈ l, wfEntry p) ∧ (l.map Prod.fst).Nodup

instance instDecidableWfW (l : List (JSVal × Window)) : Decidable (wfW l) := by
  unfold wfW
  exact inferInstance

/-- Well-formed manager state. -/
def wf (s : WMState) : Prop :=
  wfW s.windows

instance instDecidableWf (s : WMState) : Decidable (wf s) := by
  unfold wf
  exact inferInstance

theorem mapGet_eq_none_iff (l : List (JSVal × Window)) (k : JSVal) :
    mapGet l k = none ↔ k ∉ l.map Prod.fst := by
  induction l with
  | nil => simp [mapGet]
  | cons p rest ih =>
    obtain ⟨k', v⟩ := p
    by_cases h : k' = k
    · subst h
      simp [mapGet]
    · simp [mapGet, h, ih, Ne.symm h]

theorem mapGet_none_of_sublist {l' l : List (JSVal × Window)} (hsub : List.Sublist l' l)
    {k : JSVal} (h : mapGet l k = none) : mapGet l' k = none := by
  rw [mapGet_eq_none_iff] at h ⊢
  exact fun hk => h ((hsub.map Prod.fst).subset hk)

theorem mapDelete_sublist (l : List (JSVal × Window)) (k : JSVal) :
    List.Sublist (mapDelete l k) l := by
  induction l with
  | nil => simp [mapDelete]
  | cons p rest ih =>
    obtain ⟨k', v⟩ := p
    by_cases h : k' = k
    · simp [mapDelete, h]
    · simpa [mapDelete, h] using ih.cons₂ (k', v)

theorem mapGet_mapSet_self (l : List (JSVal × Window)) (k : JSVal) (v : Window) :
    mapGet (mapSet l k v) k = some v := by
  induction l with
  | nil => simp [mapSet, mapGet]
  | cons p rest ih =>
    obtain ⟨k', w⟩ := p
    by_cases h : k' = k
    · simp [mapSet, h, mapGet]
    · simp [mapSet, h, mapGet, ih]

theorem mapGet_mapSet_ne (l : List (JSVal × Window)) (k k' : JSVal) (v : Window)
    (hne : k' ≠ k) : mapGet (mapSet l k v) k' = mapGet l k' := by
  induction l with
  | nil => simp [mapSet, mapGet, Ne.symm hne]
  | cons p rest ih =>
    obtain ⟨k'', w⟩ := p
    by_cases h : k'' = k
    · subst h
      simp [mapSet, mapGet, Ne.symm hne]
    · simp only [mapSet, if_neg h, mapGet]
      rw [ih]

theorem mapSet_eq_append (l : List (JSVal × Window)) (k : JSVal) (v : Window)
    (h : mapGet l k = none) : mapSet l k v = l ++ [(k, v)] := by
  induction l with
  | nil => simp [mapSet]
  | cons p rest ih =>
    obtain ⟨k', w⟩ := p
    rw [mapGet] at h
    by_cases hk : k' = k
    · simp [hk] at h
    · rw [if_neg hk] at h
      simp [mapSet, hk, ih h]

theorem mapGet_eq_some_mem {l : List (JSVal × Window)} {k : JSVal} {w : Window}
    (h : mapGet l k = some w) : (k, w) ∈ l := by
  induction l with
  | nil => simp [mapGet] at h
  | cons p rest ih =>
    obtain ⟨k', v⟩ := p
    rw [mapGet] at h
    by_cases hk : k' = k
    · rw [if_pos hk] at h
      obtain rfl := Option.some.inj h
      simp [hk]
    · rw [if_neg hk] at h
      exact List.mem_cons_of_mem _ (ih h)

theorem mapSet_mem {l : List (JSVal × Window)} {k : JSVal} {v : Window} :
    ∀ p ∈ mapSet l k v, p ∈ l ∨ p = (k, v) := by
  induction l with
  | nil => simp [mapSet]
  | cons q rest ih =>
    obtain ⟨k', w⟩ := q
    intro p hp
    by_cases hk : k' = k
    · rw [mapSet, if_pos hk] at hp
      rcases List.mem_cons.mp hp with h | h
      · exact Or.inr h
      · exact Or.inl (List.mem_cons_of_mem _ h)
    · rw [mapSet, if_neg hk] at hp
      rcases List.mem_cons.mp hp with h | h
      · exact Or.inl (h ▸ List.mem_cons_self _ _)
      · rcases ih p h with h' | h'
        · exact Or.inl (List.mem_cons_of_mem _ h')
        · exact Or.inr h'

theorem mapSet_keys_of_get_some {l : List (JSVal × Window)} {k : JSVal} {w : Window}
    (v : Window) (h : mapGet l k = some w) :
    (mapSet l k v).map Prod.fst = l.map Prod.fst := by
  induction l with
  | nil => simp [mapGet] at h
  | cons p rest ih =>
    obtain ⟨k', u⟩ := p
    rw [mapGet] at h
    by_cases hk : k' = k
    · subst hk
      simp [mapSet]
    · rw [if_neg hk] at h
      simp [mapSet, hk, ih h]

theorem mapGet_mapDelete_self (l : List (JSVal × Window)) (k : JSVal)
    (hnd : (l.map Prod.fst).Nodup) : mapGet (mapDelete l k) k = none := by
  induction l with
  | nil => simp [mapDelete, mapGet]
  | cons p rest ih =>
    obtain ⟨k', w⟩ := p
    simp only [List.map_cons, List.nodup_cons] at hnd
    by_cases hk : k' = k
    · subst hk
      rw [mapDelete, if_pos rfl, mapGet_eq_none_iff]
      exact hnd.1
    · rw [mapDelete, if_neg hk, mapGet, if_neg hk]
      exact ih hnd.2

theorem foldl_preserve {α : Type} (P : WMState → Prop) (f : WMState → α → WMState)
    (hf : ∀ st a, P st → P (f st a)) :
    ∀ (l : List α) (st : WMState), P st → P (l.foldl f st) := by
  intro l
  induction l with
  | nil =>
    intro st h
    simpa using h
  | cons a rest ih =>
    intro st h
    exact ih _ (hf st a h)

theorem runClosed_windows_sublist : ∀ (fuel : Nat) (h : HKind) (s : WMState),
    List.Sublist (runClosed fuel h s).windows s.windows := by
  intro fuel
  induction fuel with
  | zero =>
    intro h s
    cases h with
    | hMain => simp [runClosed]
    | hAbout => simpa [runClosed] using mapDelete_sublist s.windows WindowTypes.About
  | succ n ih =>
    intro h s
    cases h with
    | hAbout => simpa [runClosed] using mapDelete_sublist s.windows WindowTypes.About
    | hMain =>
      rw [runClosed]
      refine foldl_preserve (fun st => List.Sublist st.windows s.windows) _ ?_ _ _ ?_
      · intro st p hp
        exact (ih p.2.handler st).trans hp
      · exact mapDelete_sublist s.windows WindowTypes.Main

theorem runClosed_preserves_none (fuel : Nat) (h : HKind) (s : WMState) (t : JSVal)
    (hnone : mapGet s.windows t = none) :
    mapGet (runClosed fuel h s).windows t = none :=
  mapGet_none_of_sublist (runClosed_windows_sublist fuel h s) hnone

theorem wfW_sublist {l' l : List (JSVal × Window)} (hsub : List.Sublist l' l)
    (h : wfW l) : wfW l' :=
  ⟨fun p hp => h.1 p (hsub.subset hp), h.2.sublist (hsub.map Prod.fst)⟩

theorem wf_runClosed (fuel : Nat) (h : HKind) (s : WMState) (hwf : wf s) :
    wf (runClosed fuel h s) :=
  wfW_sublist (runClosed_windows_sublist fuel h s) hwf

theorem showMain_of_some {s : WMState} {w : Window}
    (h : mapGet s.windows WindowTypes.Main = some w) : showMain s = s := by
  unfold showMain
  rw [h]

theorem showMain_of_none {s : WMState}
    (h : mapGet s.windows WindowTypes.Main = none) :
    showMain s = { s with
      windows := mapSet s.windows WindowTypes.Main (mkMainWindow s.nextId),
      nextId := s.nextId + 1 } := by
  unfold showMain
  rw [h]

theorem showAbout_of_some {s : WMState} {w : Window}
    (h : mapGet s.windows WindowTypes.About = some w) : showAbout s = s := by
  unfold showAbout
  rw [h]

theorem showAbout_of_none {s : WMState}
    (h : mapGet s.windows WindowTypes.About = none) :
    showAbout s = { s with
      windows := mapSet s.windows WindowTypes.About (mkAboutWindow s.nextId),
      nextId := s.nextId + 1 } := by
  unfold showAbout
  rw [h]

theorem toggle_of_absent {t : JSVal} {s : WMState} (h1 : t ≠ WindowTypes.Main)
    (h : mapGet s.windows t = none) : toggle t s = showW t s := by
  unfold toggle
  rw [if_neg h1, h]

theorem toggle_of_present {t : JSVal} {s : WMState} {w : Window}
    (h1 : t ≠ WindowTypes.Main) (h : mapGet s.windows t = some w) :
    toggle t s =
      .ok { s with windows := mapSet s.windows t { w with visible := !w.visible } } := by
  simp only [toggle, if_neg h1, h]
  cases hv : w.visible with
  | true => simp [hv]
  | false => simp [hv]

theorem wfW_append_one {l : List (JSVal × Window)} {p : JSVal × Window}
    (hwf : wfW l) (hp : wfEntry p) (hnk : mapGet l p.1 = none) :
    wfW (l ++ [p]) := by
  constructor
  · intro q hq
    rcases List.mem_append.mp hq with h | h
    · exact hwf.1 q h
    · obtain rfl := List.mem_singleton.mp h
      exact hp
  · rw [List.map_append, List.nodup_append]
    refine ⟨hwf.2, List.nodup_singleton _, ?_⟩
    intro a ha hb
    simp only [List.map_cons, List.map_nil, List.mem_singleton] at hb
    subst hb
    exact (mapGet_eq_none_iff l p.1).mp hnk ha

theorem wf_showMain (s : WMState) (hwf : wf s) : wf (showMain s) := by
  cases hm : mapGet s.windows WindowTypes.Main with
  | some w =>
    rw [showMain_of_some hm]
    exact hwf
  | none =>
    rw [wf, showMain_of_none hm]
    rw [mapSet_eq_append _ _ _ hm]
    exact wfW_append_one hwf (Or.inl ⟨rfl, rfl⟩) hm

theorem wf_showAbout (s : WMState) (hwf : wf s) : wf (showAbout s) := by
  cases hm : mapGet s.windows WindowTypes.About with
  | some w =>
    rw [showAbout_of_some hm]
    exact hwf
  | none =>
    rw [wf, showAbout_of_none hm]
    rw [mapSet_eq_append _ _ _ hm]
    exact wfW_append_one hwf (Or.inr ⟨rfl, rfl⟩) hm

theorem wf_showW (t : JSVal) (s s' : WMState) (hwf : wf s)
    (h : showW t s = .ok s') : wf s' := by
  rw [showW] at h
  by_cases h1 : t = WindowTypes.Main
  · rw [if_pos h1] at h
    obtain rfl := Except.ok.inj h
    exact wf_showMain s hwf
  · rw [if_neg h1] at h
    by_cases h2 : t = WindowTypes.About
    · rw [if_pos h2] at h
      obtain rfl := Except.ok.inj h
      exact wf_showAbout s hwf
    · rw [if_neg h2] at h
      by_cases h3 : t = WindowTypes.GraphicEqualizer
      · rw [if_pos h3] at h
        exact absurd h (by simp)
      · rw [if_neg h3] at h
        obtain rfl := Except.ok.inj h
        exact hwf

theorem wf_mapSet_same_handler {t : JSVal} {s : WMState} {w v : Window}
    (hwf : wf s) (hm : mapGet s.windows t = some w) (hv : v.handler = w.handler) :
    wfW (mapSet s.windows t v) := by
  constructor
  · intro p hp
    rcases mapSet_mem p hp with h' | h'
    · exact hwf.1 p h'
    · subst h'
      rcases hwf.1 (t, w) (mapGet_eq_some_mem hm) with ⟨hk, hh⟩ | ⟨hk, hh⟩
      · exact Or.inl ⟨hk, hv.trans hh⟩
      · exact Or.inr ⟨hk, hv.trans hh⟩
  · rw [mapSet_keys_of_get_some v hm]
    exact hwf.2

theorem wf_toggle (t : JSVal) (s s' : WMState) (hwf : wf s)
    (h : toggle t s = .ok s') : wf s' := by
  by_cases h1 : t = WindowTypes.Main
  · rw [toggle, if_pos h1] at h
    obtain rfl := Except.ok.inj h
    exact hwf
  · cases hm : mapGet s.windows t with
    | none =>
      rw [toggle_of_absent h1 hm] at h
      exact wf_showW t s s' hwf h
    | some w =>
      rw [toggle_of_present h1 hm] at h
      obtain rfl := Except.ok.inj h
      exact wf_mapSet_same_handler hwf hm rfl

theorem close_of_none {t : JSVal} {s : WMState}
    (h : mapGet s.windows t = none) : close t s = s := by
  unfold close
  rw [h]

theorem close_of_some {t : JSVal} {s : WMState} {w : Window}
    (h : mapGet s.windows t = some w) :
    close t s =
      deliverClosed w.handler { s with closeRequests := s.closeRequests + 1 } := by
  unfold close
  rw [h]

theorem wf_close (t : JSVal) (s : WMState) (hwf : wf s) : wf (close t s) := by
  cases hm : mapGet s.windows t with
  | none =>
    rw [close_of_none hm]
    exact hwf
  | some w =>
    rw [close_of_some hm]
    exact wf_runClosed _ _ _ hwf

theorem wf_initState : wf initState := by
  decide

theorem none_showMain {t : JSVal} {s : WMState} (hne : t ≠ WindowTypes.Main)
    (hn : getWindow t s = none) : getWindow t (showMain s) = none := by
  cases hm : mapGet s.windows WindowTypes.Main with
  | some w =>
    rw [showMain_of_some hm]
    exact hn
  | none =>
    rw [getWindow] at hn ⊢
    rw [showMain_of_none hm]
    rw [mapGet_mapSet_ne _ _ _ _ hne]
    exact hn

theorem none_showAbout {t : JSVal} {s : WMState} (hne : t ≠ WindowTypes.About)
    (hn : getWindow t s = none) : getWindow t (showAbout s) = none := by
  cases hm : mapGet s.windows WindowTypes.About with
  | some w =>
    rw [showAbout_of_some hm]
    exact hn
  | none =>
    rw [getWindow] at hn ⊢
    rw [showAbout_of_none hm]
    rw [mapGet_mapSet_ne _ _ _ _ hne]
    exact hn

theorem none_showW {t u : JSVal} {s s' : WMState} (hne : t ≠ u)
    (hn : getWindow t s = none) (h : showW u s = .ok s') :
    getWindow t s' = none := by
  rw [showW] at h
  by_cases h1 : u = WindowTypes.Main
  · rw [if_pos h1] at h
    obtain rfl := Except.ok.inj h
    exact none_showMain (h1 ▸ hne) hn
  · rw [if_neg h1] at h
    by_cases h2 : u = WindowTypes.About
    · rw [if_pos h2] at h
      obtain rfl := Except.ok.inj h
      exact none_showAbout (h2 ▸ hne) hn
    · rw [if_neg h2] at h
      by_cases h3 : u = WindowTypes.GraphicEqualizer
      · rw [if_pos h3] at h
        exact absurd h (by simp)
      · rw [if_neg h3] at h
        obtain rfl := Except.ok.inj h
        exact hn

theorem none_toggle {t u : JSVal} {s s' : WMState} (hne : t ≠ u)
    (hn : getWindow t s = none) (h : toggle u s = .ok s') :
    getWindow t s' = none := by
  by_cases h1 : u = WindowTypes.Main
  · rw [toggle, if_pos h1] at h
    obtain rfl := Except.ok.inj h
    exact hn
  · cases hm : mapGet s.windows u with
    | none =>
      rw [toggle_of_absent h1 hm] at h
      exact none_showW hne hn h
    | some w =>
      rw [toggle_of_present h1 hm] at h
      obtain rfl := Except.ok.inj h
      rw [getWindow] at hn ⊢
      rw [mapGet_mapSet_ne _ _ _ _ hne]
      exact hn

theorem none_close {t u : JSVal} {s : WMState}
    (hn : getWindow t s = none) : getWindow t (close u s) = none := by
  cases hm : mapGet s.windows u with
  | none =>
    rw [close_of_none hm]
    exact hn
  | some w =>
    rw [close_of_some hm, getWindow]
    exact runClosed_preserves_none _ _ _ _ hn

theorem runClosed_hAbout (fuel : Nat) (s : WMState) :
    runClosed fuel .hAbout s =
      { s with windows := mapDelete s.windows WindowTypes.About } := by
  cases fuel with
  | zero => simp [runClosed]
  | succ n => simp [runClosed]

theorem runClosed_main_none (fuel : Nat) (s : WMState)
    (hnd : (s.windows.map Prod.fst).Nodup) :
    mapGet (runClosed (fuel + 1) .hMain s).windows WindowTypes.Main = none := by
  simp only [runClosed]
  refine foldl_preserve (fun st => mapGet st.windows WindowTypes.Main = none)
    _ ?_ _ _ ?_
  · intro st p hp
    exact runClosed_preserves_none _ _ _ _ hp
  · exact mapGet_mapDelete_self _ _ hnd

theorem close_self_none (t : JSVal) (s : WMState) (hwf : wf s) :
    getWindow t (close t s) = none := by
  cases hm : mapGet s.windows t with
  | none =>
    rw [close_of_none hm, getWindow]
    exact hm
  | some w =>
    rcases hwf.1 (t, w) (mapGet_eq_some_mem hm) with ⟨hk, hh⟩ | ⟨hk, hh⟩
    · subst hk
      have hh' : w.handler = HKind.hMain := hh
      rw [close_of_some hm, getWindow, hh', deliverClosed]
      exact runClosed_main_none _ _ hwf.2
    · subst hk
      have hh' : w.handler = HKind.hAbout := hh
      rw [close_of_some hm, getWindow, hh', deliverClosed, runClosed_hAbout]
      exact mapGet_mapDelete_self _ _ hwf.2

theorem wfW_shapes (l : List (JSVal × Window)) (h : wfW l) :
    l = [] ∨
    (∃ wm, l = [(WindowTypes.Main, wm)] ∧ wm.handler = .hMain) ∨
    (∃ wa, l = [(WindowTypes.About, wa)] ∧ wa.handler = .hAbout) ∨
    (∃ wm wa, l = [(WindowTypes.Main, wm), (WindowTypes.About, wa)] ∧
      wm.handler = .hMain ∧ wa.handler = .hAbout) ∨
    (∃ wm wa, l = [(WindowTypes.About, wa), (WindowTypes.Main, wm)] ∧
      wm.handler = .hMain ∧ wa.handler = .hAbout) := by
  obtain ⟨hents, hnd⟩ := h
  cases l with
  | nil => exact Or.inl rfl
  | cons p l2 =>
    obtain ⟨k1, w1⟩ := p
    have h1 := hents (k1, w1) (List.mem_cons_self _ _)
    cases l2 with
    | nil =>
      rcases h1 with ⟨hk, hh⟩ | ⟨hk, hh⟩
      · subst hk
        exact Or.inr (Or.inl ⟨w1, rfl, hh⟩)
      · subst hk
        exact Or.inr (Or.inr (Or.inl ⟨w1, rfl, hh⟩))
    | cons q l3 =>
      obtain ⟨k2, w2⟩ := q
      have h2 := hents (k2, w2) (List.mem_cons_of_mem _ (List.mem_cons_self _ _))
      simp only [List.map_cons] at hnd
      obtain ⟨hk1notin, hnd2⟩ := List.nodup_cons.mp hnd
      obtain ⟨hk2notin, hnd3⟩ := List.nodup_cons.mp hnd2
      have hne12 : k1 ≠ k2 := by
        intro he
        exact hk1notin (by rw [he]; exact List.mem_cons_self _ _)
      cases l3 with
      | nil =>
        rcases h1 with ⟨hk1, hh1⟩ | ⟨hk1, hh1⟩ <;> rcases h2 with ⟨hk2, hh2⟩ | ⟨hk2, hh2⟩
        · exact absurd (hk1.trans hk2.symm) hne12
        · subst hk1
          subst hk2
          exact Or.inr (Or.inr (Or.inr (Or.inl ⟨w1, w2, rfl, hh1, hh2⟩)))
        · subst hk1
          subst hk2
          exact Or.inr (Or.inr (Or.inr (Or.inr ⟨w2, w1, rfl, hh2, hh1⟩)))
        · exact absurd (hk1.trans hk2.symm) hne12
      | cons r l4 =>
        obtain ⟨k3, w3⟩ := r
        have h3 := hents (k3, w3)
          (List.mem_cons_of_mem _ (List.mem_cons_of_mem _ (List.mem_cons_self _ _)))
        exfalso
        simp only [List.map_cons] at hk1notin hk2notin
        have hne13 : k1 ≠ k3 := by
          intro he
          exact hk1notin (by rw [he]; exact List.mem_cons_of_mem _ (List.mem_cons_self _ _))
        have hne23 : k2 ≠ k3 := by
          intro he
          exact hk2notin (by rw [he]; exact List.mem_cons_self _ _)
        rcases h1 with ⟨hk1, _⟩ | ⟨hk1, _⟩ <;>
          rcases h2 with ⟨hk2, _⟩ | ⟨hk2, _⟩ <;>
          rcases h3 with ⟨hk3, _⟩ | ⟨hk3, _⟩ <;>
          first
            | exact hne12 (hk1.trans hk2.symm)
            | exact hne13 (hk1.trans hk3.symm)
            | exact hne23 (hk2.trans hk3.symm)

/-- One public state-changing operation of the manager API. -/
inductive Op where
  | showOp (t : JSVal)
  | toggleOp (t : JSVal)
  | closeOp (t : JSVal)
deriving DecidableEq, Repr

/-- Run one operation; `show` and `toggle` can raise (through the dead
`GraphicEqualizer` dispatch arm), which aborts the run. -/
def runOp (op : Op) (s : WMState) : Except String WMState :=
  match op with
  | .showOp t => showW t s
  | .toggleOp t => toggle t s
  | .closeOp t => .ok (close t s)

/-- Run a sequence of operations from a state, stopping at the first
raised exception. -/
def runOps : List Op → WMState → Except String WMState
  | [], s => .ok s
  | op :: rest, s =>
    match runOp op s with
    | .error e => .error e
    | .ok s' => runOps rest s'

/-- Scan of the operation history, most-recent-first: `true` when, since
the last `close(t)` (or since construction, if `t` was never closed), no
operation that invokes `show(t)` has occurred — neither a direct
`show(t)` call nor a `toggle(t)` call, which delegates to `show(t)` when
the entry is absent. -/
def absentEnsured (t : JSVal) : List Op → Bool
  | [] => true
  | .closeOp u :: rest => if u = t then true else absentEnsured t rest
  | .showOp u :: rest => if u = t then false else absentEnsured t rest
  | .toggleOp u :: rest => if u = t then false else absentEnsured t rest

theorem runOps_snoc (l : List Op) (op : Op) (s : WMState) :
    runOps (l ++ [op]) s =
      match runOps l s with
      | .error e => .error e
      | .ok s' => runOp op s' := by
  induction l generalizing s with
  | nil =>
    cases h : runOp op s <;> simp [runOps, h]
  | cons o rest ih =>
    cases h : runOp o s with
    | error e => simp [runOps, h]
    | ok s1 => simp [runOps, h, ih]

theorem wf_runOp {op : Op} {s s' : WMState} (hwf : wf s)
    (h : runOp op s = .ok s') : wf s' := by
  cases op with
  | showOp t => exact wf_showW t s s' hwf h
  | toggleOp t =>
    exact wf_toggle t s s' hwf h
  | closeOp t =>
    obtain rfl := Except.ok.inj h
    exact wf_close t s hwf

theorem runOps_absent (t : JSVal) :
    ∀ (ops : List Op) (s' : WMState), runOps ops initState = .ok s' →
      wf s' ∧ (absentEnsured t ops.reverse = true → getWindow t s' = none) := by
  intro ops
  induction ops using List.reverseRecOn with
  | nil =>
    intro s' h
    obtain rfl := Except.ok.inj h
    exact ⟨wf_initState, fun _ => rfl⟩
  | append_singleton l op ih =>
    intro s' h
    rw [runOps_snoc] at h
    cases hrun : runOps l initState with
    | error e =>
      rw [hrun] at h
      exact absurd h (by simp)
    | ok s1 =>
      rw [hrun] at h
      obtain ⟨hwf1, habs1⟩ := ih s1 hrun
      refine ⟨wf_runOp hwf1 h, ?_⟩
      intro hcond
      simp only [List.reverse_append, List.reverse_cons, List.reverse_nil,
        List.nil_append, List.singleton_append] at hcond
      cases op with
      | showOp u =>
        rw [absentEnsured] at hcond
        by_cases hu : u = t
        · rw [if_pos hu] at hcond
          exact absurd hcond (by simp)
        · rw [if_neg hu] at hcond
          exact none_showW (Ne.symm hu) (habs1 hcond) h
      | toggleOp u =>
        rw [absentEnsured] at hcond
        by_cases hu : u = t
        · rw [if_pos hu] at hcond
          exact absurd hcond (by simp)
        · rw [if_neg hu] at hcond
          exact none_toggle (Ne.symm hu) (habs1 hcond) h
      | closeOp u =>
        rw [absentEnsured] at hcond
        by_cases hu : u = t
        · subst hu
          obtain rfl := Except.ok.inj h
          exact close_self_none u s1 hwf1
        · rw [if_neg hu] at hcond
          obtain rfl := Except.ok.inj h
          exact none_close (habs1 hcond)

theorem runClosed_hMain_empty (fuel : Nat) (s : WMState) (hwf : wf s)
    (w : Window) (hmain : mapGet s.windows WindowTypes.Main = some w) :
    (runClosed (fuel + 1) .hMain s).windows = [] := by
  have eMM : (WindowTypes.Main == WindowTypes.Main) = true := by decide
  have eAM : (WindowTypes.About == WindowTypes.Main) = false := by decide
  have nAM : ¬(WindowTypes.About = WindowTypes.Main) := by decide
  rcases wfW_shapes s.windows hwf with h0 | ⟨wm, hsh, hm⟩ | ⟨wa, hsh, ha⟩ |
    ⟨wm, wa, hsh, hm, ha⟩ | ⟨wm, wa, hsh, hm, ha⟩
  · rw [h0, mapGet] at hmain
    exact absurd hmain (by simp)
  · simp [runClosed, hsh, eMM, mapDelete]
  · rw [hsh, mapGet, if_neg nAM, mapGet] at hmain
    exact absurd hmain (by simp)
  · simp [runClosed, hsh, eMM, eAM, nAM, mapDelete, runClosed_hAbout, ha]
  · simp [runClosed, hsh, eMM, eAM, nAM, mapDelete, runClosed_hAbout, ha]

/-- C1: after `show(Main)` has created the main window, delivery of the
main window's close notification runs the cascading handler registered
by `_showMain`: every other window type whose entry is Created is closed
and transitions to Absent, and the Main entry itself is deleted, so the
registry ends empty. -/
theorem c1_main_close_cascades (s : WMState) (hwf : wf s) (w : Window)
    (hmain : getWindow WindowTypes.Main s = some w) :
    (deliverClosed w.handler s).windows = [] ∧
    ∀ u, getWindow u (deliverClosed w.handler s) = none := by
  have hh : w.handler = .hMain := by
    rcases hwf.1 (WindowTypes.Main, w) (mapGet_eq_some_mem hmain) with ⟨_, h⟩ | ⟨hk, _⟩
    · exact h
    · have hk' : WindowTypes.Main = WindowTypes.About := hk
      exact absurd hk' (by decide)
  have hempty : (deliverClosed w.handler s).windows = [] := by
    rw [hh, deliverClosed]
    exact runClosed_hMain_empty _ _ hwf w hmain
  refine ⟨hempty, fun u => ?_⟩
  rw [getWindow, hempty, mapGet]

theorem c1_witness :
    (deliverClosed ((mkMainWindow 0).handler) (showMain initState)).windows = [] :=
  (c1_main_close_cascades (showMain initState) (by decide) (mkMainWindow 0)
    (by decide)).1

/-- C2: the claim says every unrecognized type is a silent no-op and no
operation throws. The `default` arm is indeed a silent no-op (first
conjunct, shown at a representative unrecognized type), but the dispatch
also has the arm `case WindowTypes.GraphicEqualizer:` (line 79):
`WindowTypes` defines no `GraphicEqualizer` property, so that case label
is `undefined`, and its body calls `this._showGraphicEqualizer()`, a
method that does not exist — `show( undefined )` therefore raises a
`TypeError` instead of being a no-op (second conjunct). -/
theorem c2_show_undefined_throws :
    showW (JSVal.str "settings") initState = .ok initState ∧
    showW WindowTypes.GraphicEqualizer initState =
      .error "TypeError: this._showGraphicEqualizer is not a function" :=
  ⟨rfl, rfl⟩

/-- C3: for every window type other than `Main`, calling `toggle` while
the type's entry is Absent takes the `else` branch of `toggle` and
delegates to `this.show( type )`, so it results in exactly the state
`show` produces. -/
theorem c3_toggle_absent_is_show (t : JSVal) (s : WMState)
    (hne : t ≠ WindowTypes.Main) (habsent : getWindow t s = none) :
    toggle t s = showW t s :=
  toggle_of_absent hne habsent

theorem c3_witness :
    toggle WindowTypes.About initState = showW WindowTypes.About initState :=
  c3_toggle_absent_is_show WindowTypes.About initState (by decide) rfl

/-- C4: `show(About)` and `show(Main)` are idempotent: a second call while
the window exists takes the early-return guard, constructs nothing and
leaves the whole state (registry and counters) unchanged; two successive
`show(About)` calls from an Absent state perform exactly one
`BrowserWindow` construction (`nextId` counts constructions). -/
theorem c4_show_idempotent (s : WMState) :
    showAbout (showAbout s) = showAbout s ∧
    showMain (showMain s) = showMain s ∧
    (∀ w, getWindow WindowTypes.About s = some w → showAbout s = s) ∧
    (∀ w, getWindow WindowTypes.Main s = some w → showMain s = s) ∧
    (getWindow WindowTypes.About s = none →
      (showAbout (showAbout s)).nextId = s.nextId + 1) := by
  have habout : showAbout (showAbout s) = showAbout s := by
    cases hm : mapGet s.windows WindowTypes.About with
    | some w =>
      rw [showAbout_of_some hm, showAbout_of_some hm]
    | none =>
      rw [showAbout_of_none hm]
      exact showAbout_of_some (mapGet_mapSet_self _ _ _)
  have hmain : showMain (showMain s) = showMain s := by
    cases hm : mapGet s.windows WindowTypes.Main with
    | some w =>
      rw [showMain_of_some hm, showMain_of_some hm]
    | none =>
      rw [showMain_of_none hm]
      exact showMain_of_some (mapGet_mapSet_self _ _ _)
  refine ⟨habout, hmain, fun w h => showAbout_of_some h,
    fun w h => showMain_of_some h, fun hm => ?_⟩
  rw [habout, showAbout_of_none hm]

theorem c4_witness : (showAbout (showAbout initState)).nextId = initState.nextId + 1 :=
  (c4_show_idempotent initState).2.2.2.2 rfl

/-- C5: `toggle(Main)` returns at once (`if( type === WindowTypes.Main )
{ return; }`), so for every prior state it changes nothing: the
registry, all windows and their visibility, and the instrumentation
counters are exactly as before. -/
theorem c5_toggle_main_noop (s : WMState) : toggle WindowTypes.Main s = .ok s := by
  unfold toggle
  rw [if_pos rfl]

/-- C6: `close(type)` on an Absent entry takes the defensive guard
`if( !( w ) ) { return; }`: it raises nothing, issues no `w.close()`
request (the `closeRequests` counter is part of the returned state) and
leaves the state exactly unchanged. -/
theorem c6_close_absent_noop (t : JSVal) (s : WMState)
    (h : getWindow t s = none) : close t s = s :=
  close_of_none h

theorem c6_witness : close WindowTypes.About initState = initState :=
  c6_close_absent_noop WindowTypes.About initState rfl

/-- C7: `getWindow` is the pure lookup `this._windows.get( type )` (it
returns only the optional handle and touches nothing). For every run of
public operations from the constructor's state in which, since the last
`close(type)` (or since construction), no operation invoked
`show(type)` — neither a direct `show` nor a `toggle` that delegates to
it — the lookup returns Absent; and immediately after a completed
`show(type)` of a recognized type (`Main`, `About`), it returns a
handle. -/
theorem c7_getWindow_lookup (t : JSVal) (ops : List Op) (s' : WMState)
    (h1 : runOps ops initState = .ok s')
    (h2 : absentEnsured t ops.reverse = true) :
    getWindow t s' = none ∧
    (∀ s s2 : WMState, showW WindowTypes.Main s = .ok s2 →
      (getWindow WindowTypes.Main s2).isSome = true) ∧
    (∀ s s2 : WMState, showW WindowTypes.About s = .ok s2 →
      (getWindow WindowTypes.About s2).isSome = true) := by
  refine ⟨(runOps_absent t ops s' h1).2 h2, ?_, ?_⟩
  · intro s s2 h
    unfold showW at h
    rw [if_pos rfl] at h
    obtain rfl := Except.ok.inj h
    cases hm : mapGet s.windows WindowTypes.Main with
    | some w =>
      rw [showMain_of_some hm, getWindow, hm]
      rfl
    | none =>
      rw [showMain_of_none hm]
      show (mapGet (mapSet s.windows WindowTypes.Main (mkMainWindow s.nextId))
        WindowTypes.Main).isSome = true
      rw [mapGet_mapSet_self]
      rfl
  · intro s s2 h
    unfold showW at h
    rw [if_neg (by decide), if_pos rfl] at h
    obtain rfl := Except.ok.inj h
    cases hm : mapGet s.windows WindowTypes.About with
    | some w =>
      rw [showAbout_of_some hm, getWindow, hm]
      rfl
    | none =>
      rw [showAbout_of_none hm]
      show (mapGet (mapSet s.windows WindowTypes.About (mkAboutWindow s.nextId))
        WindowTypes.About).isSome = true
      rw [mapGet_mapSet_self]
      rfl

theorem c7_witness :
    getWindow WindowTypes.About
      (close WindowTypes.About (showAbout initState)) = none :=
  (c7_getWindow_lookup WindowTypes.About
    [Op.showOp WindowTypes.About, Op.closeOp WindowTypes.About]
    (close WindowTypes.About (showAbout initState)) rfl rfl).1

/-- C8: one run of the inbound show-URL handler invokes the shell's
external-open capability exactly once with exactly the given string, and
sends exactly one `FinishShowURL` acknowledgment back to the sender; no
validation is performed and no error is surfaced (the handler is total
and its effect lists depend on nothing but the URL). -/
theorem c8_show_url_bridge (url : String) :
    (onRequestShowURL url).openedExternal = [url] ∧
    (onRequestShowURL url).sentToSender = [IPCKey.FinishShowURL] :=
  ⟨rfl, rfl⟩

/-- C9: the read mapping projects exactly the state's `folders` and
`currentFolder` fields unchanged, and each write callback constructs one
action from its argument and submits it to `dispatch` exactly once (the
model records, per invocation, the list of actions submitted). -/
theorem c9_state_binding (state : AppState) (folderPath : String) (folder : Folder) :
    (mapStateToProps state).folders = state.folders ∧
    (mapStateToProps state).currentFolder = state.currentFolder ∧
    mapDispatchToProps.enumSubFolders folderPath = [Action.enumSubFolders folderPath] ∧
    mapDispatchToProps.enumItems folder = [Action.enumItems folder] :=
  ⟨rfl, rfl, rfl, rfl⟩

/-- C10: `reload()` and `toggleDevTools()` never consult or modify the
`_windows` registry: whatever the registry holds, the returned state is
exactly the input state (so every lookup is unchanged); with no focused
window they do nothing, and with a focused window they act on that
window alone. -/
theorem c10_focused_frame (focused : Option Window) (s : WMState) (t : JSVal) :
    (reload focused s).1 = s ∧
    (toggleDevTools focused s).1 = s ∧
    getWindow t (reload focused s).1 = getWindow t s ∧
    getWindow t (toggleDevTools focused s).1 = getWindow t s ∧
    (reload none s).2 = [] ∧
    (toggleDevTools none s).2 = [] ∧
    (∀ w, focused = some w → (reload focused s).2 = [w.id]) ∧
    (∀ w, focused = some w → (toggleDevTools focused s).2 = [w.id]) := by
  cases focused with
  | none =>
    exact ⟨rfl, rfl, rfl, rfl, rfl, rfl,
      fun w h => Option.noConfusion h, fun w h => Option.noConfusion h⟩
  | some w0 =>
    refine ⟨rfl, rfl, rfl, rfl, rfl, rfl, ?_, ?_⟩ <;>
      · intro w h
        obtain rfl := Option.some.inj h
        rfl

theorem c10_witness :
    (reload (some (mkMainWindow 5)) initState).2 = [(mkMainWindow 5).id] :=
  (c10_focused_frame (some (mkMainWindow 5)) initState WindowTypes.Main).2.2.2.2.2.2.1
    (mkMainWindow 5) rfl

end ElectronStarter
